import Mathlib

/-!
# Verification of the ezWorker executor

Shallow embedding of the `executor` package (files `executor/new.go`,
`executor/executor.go`) and of the `worker` package interfaces.

The Go code is event-driven and concurrent; we embed it as follows.

* One iteration of the dispatch loop of `executor.Run` is a pure function
  from the event the `select` observed (cancellation fired, or a channel
  receive with its comma-ok flag) to the list of actions the iteration
  performs, in order.  Channel sends, pool operations, teardown and panics
  are actions.  The collaborator results the iteration depends on (the
  result of `Teardown`) are parameters.
* The spawned per-task goroutine of `executor.Run` is a pure function from
  the collaborator results it observes (`Worker.Execute`, `Pool.Put`,
  `Teardown`) to its ordered list of actions.
* `New` is embedded with the factory as a function from call index to the
  `Create` result, the pool as a list with a capacity bound (`Put` fails
  exactly when the pool is full, per the fixed-size-pool contract), and a
  trace of factory invocations so that claims about which factory methods
  are called can be stated.
* `Teardown` is embedded with the pool as a list (`Avail` is its length,
  `Get` pops the head) and `Factory.Destroy` as a function from worker to
  optional error.  The loop condition `i < e.workerPool.Avail()`
  re-evaluates `Avail()` on every iteration, exactly as the Go `for` loop
  does; the embedding keeps that re-evaluation.
* The admission-control behaviour of the pool (claim about concurrent
  executions) is embedded as a labelled transition system over the counts
  of available and active workers.
-/

namespace EzWorker

/-- An error value is abstract; `Option E` models Go's nilable `error`
(`none` = nil). -/
abbrev GoErr (E : Type) := Option E

/-! ## Dispatch-loop iteration (`executor.Run`, outer goroutine)

The Go loop body is

```
select {
case <-e.cancelContext.Done():
    e.errorChannel <- e.cancelContext.Err()
    err := e.Teardown()
    if err != nil { panic(...) }
    return
case msg, closed := <-e.inputChannel:
    if closed { err := e.Teardown(); if err != nil { panic(...) }; return }
    wrkr := e.workerPool.Get()
    go func(msg, wrkr, e) { ... }(msg, wrkr, e)
}
```

`msg, closed := <-e.inputChannel` binds Go's comma-ok flag to `closed`:
the flag is `true` when a value was received and `false` when the channel
is closed and drained.  The embedding keeps the source's use of that flag
unchanged. -/

/-- The event one iteration of the dispatch loop reacts to: either the
cancellation context fired (carrying `ctx.Err()`), or the receive from the
input channel completed, yielding the received message and Go's comma-ok
flag (`true` = a value was received, `false` = the channel is closed; in
the closed case the message is the zero value of the element type). -/
inductive LoopEvent (I E : Type) where
  | cancelFired (ctxErr : E)
  | chanRecv (msg : I) (ok : Bool)
  deriving DecidableEq

/-- An observable action of one dispatch-loop iteration, in program order. -/
inductive LoopAction (I E : Type) where
  /-- A send on `errorChannel`. -/
  | emitErr (e : E)
  /-- A call to `e.Teardown()`. -/
  | teardownCall
  /-- The goroutine returns: the loop terminates normally. -/
  | exitLoop
  /-- `panic(fmt.Errorf("failed to teardown executor: %w", err))`. -/
  | panicTeardown (wrapped : E)
  /-- A call to `e.workerPool.Get()`. -/
  | poolGet
  /-- `go func(msg, w, e){...}(msg, wrkr, e)`: a task execution is spawned
  for `msg` and the loop continues with the next iteration. -/
  | spawn (msg : I)
  deriving DecidableEq

/-- One iteration of the dispatch loop of `executor.Run`, as the ordered
list of actions it performs.  `teardownResult` is what `e.Teardown()`
returns if this iteration calls it (`none` = nil). -/
def runIteration {I E : Type} (ev : LoopEvent I E) (teardownResult : GoErr E) :
    List (LoopAction I E) :=
  match ev with
  | .cancelFired ctxErr =>
      LoopAction.emitErr ctxErr :: LoopAction.teardownCall ::
        (match teardownResult with
         | some te => [LoopAction.panicTeardown te]
         | none => [LoopAction.exitLoop])
  | .chanRecv msg ok =>
      -- source: `msg, closed := <-e.inputChannel` (so `closed` is the
      -- comma-ok flag `ok`), then `if closed { Teardown; return }`
      if ok then
        LoopAction.teardownCall ::
          (match teardownResult with
           | some te => [LoopAction.panicTeardown te]
           | none => [LoopAction.exitLoop])
      else
        [LoopAction.poolGet, LoopAction.spawn msg]

/-- Number of `spawn` actions in a loop trace. -/
def countSpawn {I E : Type} (tr : List (LoopAction I E)) : Nat :=
  tr.countP fun a => match a with | .spawn _ => true | _ => false

/-- Number of `emitErr` actions in a loop trace. -/
def countLoopEmitErr {I E : Type} (tr : List (LoopAction I E)) : Nat :=
  tr.countP fun a => match a with | .emitErr _ => true | _ => false

/-! ## Per-task execution goroutine (`executor.Run`, inner goroutine)

```
go func(msg I, w worker.Worker[I, O], e *executor[I, O]) {
    defer func() {
        err := e.workerPool.Put(w)
        if err != nil {
            putErr := e.Teardown()
            if putErr != nil { panic(fmt.Errorf("failed to teardown executor: %w", putErr)) }
            panic(fmt.Errorf("failed to put worker back into pool: %w", putErr))
        }
    }()
    output, err := w.Execute(e.cancelContext, msg)
    if err != nil { e.errorChannel <- err; return }
    e.outputChannel <- output
}(msg, wrkr, e)
```

Note that both panics in the deferred function wrap `putErr`, the result of
`e.Teardown()`; the second panic fires only when `putErr` is nil. -/

/-- An observable action of the spawned per-task goroutine, in program
order. -/
inductive TaskAction (O E : Type) where
  /-- A send on `outputChannel`. -/
  | emitOut (o : O)
  /-- A send on `errorChannel`. -/
  | emitErr (e : E)
  /-- The call `e.workerPool.Put(w)`: the worker is handed back to the
  pool. -/
  | putWorker
  /-- The call `e.Teardown()` inside the deferred function. -/
  | teardownCall
  /-- `panic(fmt.Errorf("failed to teardown executor: %w", putErr))`,
  wrapping the non-nil teardown error. -/
  | panicTeardown (wrapped : E)
  /-- `panic(fmt.Errorf("failed to put worker back into pool: %w", putErr))`,
  wrapping the value of the variable `putErr` at that point. -/
  | panicPut (wrapped : GoErr E)
  deriving DecidableEq

/-- The spawned per-task goroutine of `executor.Run`, as the ordered list
of actions it performs.  `execResult` is what `w.Execute` returns,
`putResult` what `e.workerPool.Put(w)` returns, `teardownResult` what
`e.Teardown()` returns if the deferred function calls it.  Go runs the
deferred function after the body, so its actions come last. -/
def taskExec {O E : Type} (execResult : Except E O) (putResult : GoErr E)
    (teardownResult : GoErr E) : List (TaskAction O E) :=
  let body : List (TaskAction O E) :=
    match execResult with
    | .error err => [TaskAction.emitErr err]
    | .ok output => [TaskAction.emitOut output]
  let deferred : List (TaskAction O E) :=
    match putResult with
    | none => [TaskAction.putWorker]
    | some _ =>
        match teardownResult with
        | some putErr =>
            [TaskAction.putWorker, TaskAction.teardownCall,
             TaskAction.panicTeardown putErr]
        | none =>
            -- here the variable `putErr` holds nil, and the panic wraps it
            [TaskAction.putWorker, TaskAction.teardownCall,
             TaskAction.panicPut none]
  body ++ deferred

/-- Whether a task action is a Result emission (a send on the output or
the error channel). -/
def isResult {O E : Type} : TaskAction O E → Bool
  | .emitOut _ => true
  | .emitErr _ => true
  | _ => false

/-- Number of Result emissions in a task trace. -/
def countResults {O E : Type} (tr : List (TaskAction O E)) : Nat :=
  tr.countP isResult

/-- Number of `Pool.Put` calls in a task trace. -/
def countPuts {O E : Type} (tr : List (TaskAction O E)) : Nat :=
  tr.countP fun a => match a with | .putWorker => true | _ => false

/-- Number of output-channel sends in a task trace. -/
def countEmitOut {O E : Type} (tr : List (TaskAction O E)) : Nat :=
  tr.countP fun a => match a with | .emitOut _ => true | _ => false

/-! ## Construction (`executor.New`)

```
e := &executor[I, O]{..., workerPool: pool.NewFixedSizedPool[...](uint32(workerCount))}
for i := 0; i < int(workerCount); i++ {
    wrkr, err := e.workerFactory.Create()
    if err != nil { return nil, err }
    err = e.workerPool.Put(wrkr)
    if err != nil { return nil, err }
}
return e, nil
```

The factory is a function from call index to the `Create` result.  The
fixed-size pool is a list with capacity `workerCount`; its `Put` fails
exactly when the pool already holds `capacity` workers (it cannot in this
loop, but the source checks the error and the embedding keeps the
check). -/

/-- A factory invocation made during construction. -/
inductive FacOp (W : Type) where
  | createCall
  | destroyCall (w : W)
  deriving DecidableEq

/-- The error `New` can return: a `Create` failure (the factory's error)
or a pool `Put` failure. -/
inductive NewErr (E : Type) where
  | createFailed (e : E)
  | poolPutFailed
  deriving DecidableEq

/-- The outcome of `New`: the executor (`some pool` with the populated
pool; `none` models the `nil` executor returned on failure), the returned
error, and the trace of factory invocations made. -/
structure NewOutcome (W E : Type) where
  executor : Option (List W)
  err : Option (NewErr E)
  ops : List (FacOp W)
  deriving DecidableEq

/-- The population loop of `New`.  The first `Nat` is the number of
remaining iterations (the loop runs `workerCount` times), `i` the current
call index, `pool` the pool contents, `ops` the factory trace so far;
`cap` is the pool capacity. -/
def newLoop {W E : Type} (create : Nat → Except E W) (cap : Nat) :
    Nat → Nat → List W → List (FacOp W) → NewOutcome W E
  | 0, _, pool, ops => ⟨some pool, none, ops⟩
  | n + 1, i, pool, ops =>
      match create i with
      | .error e => ⟨none, some (NewErr.createFailed e), ops ++ [FacOp.createCall]⟩
      | .ok w =>
          if pool.length < cap then
            newLoop create cap n (i + 1) (pool ++ [w]) (ops ++ [FacOp.createCall])
          else
            ⟨none, some NewErr.poolPutFailed, ops ++ [FacOp.createCall]⟩

/-- `New` with the given worker count: allocate a fixed-size pool of that
capacity and populate it, `Create`ing one worker per iteration. -/
def runNew {W E : Type} (workerCount : Nat) (create : Nat → Except E W) :
    NewOutcome W E :=
  newLoop create workerCount workerCount 0 [] []

/-- Number of `Destroy` invocations in a factory trace. -/
def countDestroyOps {W : Type} (ops : List (FacOp W)) : Nat :=
  ops.countP fun op => match op with | .destroyCall _ => true | _ => false

/-! ## Teardown (`executor.Teardown`)

```
for i := uint32(0); i < e.workerPool.Avail(); i++ {
    wrkr := e.workerPool.Get()
    err := e.workerFactory.Destroy(wrkr)
    if err != nil { return fmt.Errorf("failed to destroy worker: %w", err) }
}
err := e.workerPool.Teardown()
if err != nil { return fmt.Errorf("failed to teardown worker pool: %w", err) }
return nil
```

The pool is a list: `Avail()` is its length and `Get()` removes the head.
The Go `for` condition re-evaluates `e.workerPool.Avail()` before every
iteration, on the pool as `Get` has left it; the embedding does the
same. -/

/-- The drain loop of `Teardown`: returns the list of workers `Destroy`
was invoked on (in order), the remaining pool contents, and the `Destroy`
error that aborted the loop, if any. -/
def drainLoop {W E : Type} (destroy : W → GoErr E) :
    Nat → List W → List W × List W × GoErr E
  | _, [] => ([], [], none)
  | i, w :: rest =>
      if i < (w :: rest).length then
        match destroy w with
        | some e => ([w], rest, some e)
        | none =>
            let p := drainLoop destroy (i + 1) rest
            (w :: p.1, p.2.1, p.2.2)
      else
        ([], w :: rest, none)

/-- `executor.Teardown`: drain available workers, then tear the pool down.
Returns the workers `Destroy` was invoked on, the returned error (`none` =
nil), and whether `workerPool.Teardown()` was reached.  `poolTeardown` is
what `workerPool.Teardown()` returns if called. -/
def teardownRun {W E : Type} (destroy : W → GoErr E) (pool : List W)
    (poolTeardown : GoErr E) : List W × GoErr E × Bool :=
  let d := drainLoop destroy 0 pool
  match d.2.2 with
  | some e => (d.1, some e, false)
  | none =>
      match poolTeardown with
      | some e => (d.1, some e, true)
      | none => (d.1, none, true)

/-! ## Admission control (pool-bounded concurrency)

The dispatch loop calls `e.workerPool.Get()` before spawning a task
goroutine; `Get` blocks until a worker is available, so a dispatch step is
enabled only when the available count is positive, and removes one worker.
A task goroutine's completion runs the deferred `e.workerPool.Put(w)`,
returning its worker.  We embed this as a labelled transition system over
the two counts. -/

/-- Counts of pool-available workers and of active (spawned, not yet
completed) task executions. -/
structure PoolState where
  avail : Nat
  active : Nat
  deriving DecidableEq

/-- Label of a scheduler step. -/
inductive StepKind where
  | dispatch
  | complete
  deriving DecidableEq

/-- One scheduler step: `dispatch` is the dispatch loop completing
`workerPool.Get()` (enabled only when a worker is available, since `Get`
blocks on an empty pool) and spawning a task goroutine; `complete` is a
task goroutine finishing and its deferred `workerPool.Put(w)` returning
the worker. -/
inductive ExecStep : PoolState → StepKind → PoolState → Prop where
  | dispatch (s : PoolState) (h : 0 < s.avail) :
      ExecStep s StepKind.dispatch ⟨s.avail - 1, s.active + 1⟩
  | complete (s : PoolState) (h : 0 < s.active) :
      ExecStep s StepKind.complete ⟨s.avail + 1, s.active - 1⟩

/-- States reachable from the initial state of a freshly constructed
executor with pool capacity `cap`: all `cap` workers available, no active
execution. -/
inductive ReachableFrom (cap : Nat) : PoolState → Prop where
  | init : ReachableFrom cap ⟨cap, 0⟩
  | step {s t : PoolState} {k : StepKind} :
      ReachableFrom cap s → ExecStep s k t → ReachableFrom cap t

/-! ## Concrete inputs used by witnesses -/

/-- Factory for the `New`-failure witness: `Create` succeeds on the first
call and fails (error 99) on the second. -/
def failingCreate : Nat → Except Nat Nat :=
  fun i => if i = 0 then Except.ok 10 else Except.error 99

/-! ## Theorems -/

/-- C1: the claim says a closed-channel receive (comma-ok `false`) makes
the loop tear down and exit, while a received value (comma-ok `true`)
makes it borrow a worker and dispatch.  The code does the opposite: it
binds the comma-ok flag as `closed` and tears down when it is `true`.
This theorem evaluates the code at both inputs: receiving the task value
`5` tears down and exits the loop, while the closed-channel receive
borrows a worker and dispatches the zero value. -/
theorem c1_code_inverts_comma_ok :
    runIteration (I := Nat) (E := Nat) (LoopEvent.chanRecv 5 true) none =
      [LoopAction.teardownCall, LoopAction.exitLoop] ∧
    runIteration (I := Nat) (E := Nat) (LoopEvent.chanRecv 0 false) none =
      [LoopAction.poolGet, LoopAction.spawn 0] :=
  ⟨rfl, rfl⟩

/-- C2: the claim says Teardown invokes `Factory.Destroy` once per each of
the `A` available workers.  The code evaluated at a pool of 2 available
workers, with every `Destroy` succeeding: `Destroy` is invoked on worker 1
only, worker 2 is never destroyed, and the run still reaches
`workerPool.Teardown()` and returns nil — because the loop condition
`i < Avail()` re-reads the available count that each `Get` shrinks. -/
theorem c2_drain_skips_half :
    teardownRun (W := Nat) (E := Nat) (fun _ => none) [1, 2] none =
      ([1], none, true) :=
  rfl

/-- C3: the claim says that when `Pool.Put` fails the panic carries the
error returned by `Pool.Put`.  The code evaluated at the failing input
(`Execute` returns output 42, `Put` fails with error 7, `Teardown`
succeeds): the task emits its output, calls `Put`, attempts `Teardown`,
and then panics wrapping `putErr` — the nil result of `Teardown` — so the
`Put` error 7 is not in the panic. -/
theorem c3_panic_wraps_nil_teardown_result :
    taskExec (O := Nat) (E := Nat) (Except.ok 42) (some 7) none =
      [TaskAction.emitOut 42, TaskAction.putWorker, TaskAction.teardownCall,
       TaskAction.panicPut none] :=
  rfl

/-- C4: for every accepted task, whatever `Execute`, `Put` and `Teardown`
return, the spawned execution unit emits exactly one Result, calls
`Pool.Put` exactly once, and its trace starts with the Result emission
immediately followed by the `Put` — so the worker is returned after the
Result has been written, never both streams, never neither. -/
theorem c4_one_result_one_put {O E : Type} (execResult : Except E O)
    (putResult teardownResult : GoErr E) :
    countResults (taskExec execResult putResult teardownResult) = 1 ∧
    countPuts (taskExec execResult putResult teardownResult) = 1 ∧
    ∃ hd tl, taskExec execResult putResult teardownResult
        = hd :: TaskAction.putWorker :: tl ∧ isResult hd = true := by
  rcases execResult with err | out <;> rcases putResult with _ | pe <;>
    rcases teardownResult with _ | te <;>
    exact ⟨rfl, rfl, _, _, rfl, rfl⟩

/-- C5: when the cancellation signal fires with error `e` and `Teardown`
succeeds, the loop iteration writes `e` to the error stream exactly once,
then calls `Teardown`, then exits the loop, spawning no task — so no
further task is accepted after the emission. -/
theorem c5_cancellation_emits_once {I E : Type} (e : E) (td : GoErr E)
    (h : td = none) :
    runIteration (I := I) (LoopEvent.cancelFired e) td =
      [LoopAction.emitErr e, LoopAction.teardownCall, LoopAction.exitLoop] ∧
    countLoopEmitErr (runIteration (I := I) (LoopEvent.cancelFired e) td) = 1 ∧
    countSpawn (runIteration (I := I) (LoopEvent.cancelFired e) td) = 0 := by
  subst h
  exact ⟨rfl, rfl, rfl⟩

/-- Witness for C5 at `I = Nat`, cancellation error 7, nil teardown
result. -/
theorem c5_witness :
    runIteration (I := Nat) (LoopEvent.cancelFired 7) (none : GoErr Nat) =
      [LoopAction.emitErr 7, LoopAction.teardownCall, LoopAction.exitLoop] ∧
    countLoopEmitErr
      (runIteration (I := Nat) (LoopEvent.cancelFired 7) (none : GoErr Nat)) = 1 ∧
    countSpawn
      (runIteration (I := Nat) (LoopEvent.cancelFired 7) (none : GoErr Nat)) = 0 :=
  c5_cancellation_emits_once 7 none rfl

/-- C6: when `Worker.Execute` returns the error `e` and the pool return
succeeds, the task's trace is exactly: `e` is written to the error stream,
then the worker is put back into the pool — so no output is written for
that task and the worker is returned for reuse. -/
theorem c6_execute_error_forwarded {O E : Type} (e : E)
    (teardownResult : GoErr E) :
    taskExec (O := O) (Except.error e) none teardownResult =
      [TaskAction.emitErr e, TaskAction.putWorker] ∧
    countEmitOut (taskExec (O := O) (Except.error e) none teardownResult) = 0 :=
  ⟨rfl, rfl⟩

/-- If `Create` succeeds before call index `j` and fails at `j` with `e`,
the population loop of `New` ends with no executor and the error
`createFailed e`. -/
theorem newLoop_create_fails {W E : Type} (create : Nat → Except E W)
    (cap j : Nat) (e : E) (hfail : create j = Except.error e) :
    ∀ n i pool ops, i + n = cap → i ≤ j → j < cap → pool.length = i →
      (∀ k, i ≤ k → k < j → ∃ w, create k = Except.ok w) →
      (newLoop create cap n i pool ops).executor = none ∧
      (newLoop create cap n i pool ops).err = some (NewErr.createFailed e) := by
  intro n
  induction n with
  | zero =>
      intro i pool ops hcap hij hjcap hlen _
      omega
  | succ n ih =>
      intro i pool ops hcap hij hjcap hlen hok
      by_cases hij2 : i = j
      · subst hij2
        simp [newLoop, hfail]
      · have hlt : i < j := lt_of_le_of_ne hij hij2
        obtain ⟨w, hw⟩ := hok i le_rfl hlt
        have hpool : pool.length < cap := by omega
        simp only [newLoop, hw, if_pos hpool]
        exact ih (i + 1) (pool ++ [w]) (ops ++ [FacOp.createCall]) (by omega) hlt
          hjcap (by simp [hlen]) (fun k hk1 hk2 => hok k (by omega) hk2)

/-- C7: for every worker count `n` and factory, if the `Create` calls
succeed up to the `j`-th and the `j`-th (with `j < n`) fails with error
`e`, then `New` returns that error (as a construction failure) and the
executor result is nil. -/
theorem c7_create_failure_aborts {W E : Type} (n j : Nat)
    (create : Nat → Except E W) (e : E) (hj : j < n)
    (hfail : create j = Except.error e)
    (hok : ∀ k, k < j → ∃ w, create k = Except.ok w) :
    (runNew n create).executor = none ∧
    (runNew n create).err = some (NewErr.createFailed e) :=
  newLoop_create_fails create n j e hfail n 0 [] [] (by omega) (by omega) hj rfl
    (fun k _ hk2 => hok k hk2)

/-- Witness for C7: `Create` fails on the 2nd of 3 required workers. -/
theorem c7_witness :
    (runNew 3 failingCreate).executor = none ∧
    (runNew 3 failingCreate).err = some (NewErr.createFailed 99) :=
  c7_create_failure_aborts 3 1 failingCreate 99 (by decide) rfl
    (fun k hk => ⟨10, by
      have hk0 : k = 0 := Nat.lt_one_iff.mp hk
      subst hk0
      rfl⟩)

/-- The population loop of `New` never appends a `Destroy` invocation to
the factory trace. -/
theorem newLoop_no_destroy {W E : Type} (create : Nat → Except E W)
    (cap : Nat) :
    ∀ n i pool ops,
      countDestroyOps (newLoop create cap n i pool ops).ops =
        countDestroyOps ops := by
  intro n
  induction n with
  | zero => intro i pool ops; rfl
  | succ n ih =>
      intro i pool ops
      simp only [newLoop]
      rcases hc : create i with e | w
      · simp [countDestroyOps, List.countP_append]
      · dsimp only
        by_cases hp : pool.length < cap
        · rw [if_pos hp, ih]
          simp [countDestroyOps, List.countP_append]
        · rw [if_neg hp]
          simp [countDestroyOps, List.countP_append]

/-- C8: for every worker count and factory — in particular on partial
construction failure — `New` makes no `Factory.Destroy` invocation at
all: its factory trace contains zero `Destroy` calls. -/
theorem c8_new_never_destroys {W E : Type} (n : Nat)
    (create : Nat → Except E W) :
    countDestroyOps (runNew n create).ops = 0 :=
  newLoop_no_destroy create n n 0 [] []

/-- In every state reachable from the initial state of a capacity-`cap`
pool, active executions and available workers sum to `cap`. -/
theorem reachable_inv (cap : Nat) (s : PoolState) (h : ReachableFrom cap s) :
    s.active + s.avail = cap := by
  induction h with
  | init => simp
  | step hr hstep ih =>
      cases hstep with
      | dispatch hav =>
          dsimp only
          omega
      | complete hac =>
          dsimp only
          omega

/-- C9: in every reachable state of the executor, the number of active
task executions plus the number of available workers equals the pool
capacity, so at most `cap` executions are active simultaneously; and a
dispatch step (the loop completing `Pool.Get` and spawning) is possible
only while strictly fewer than `cap` executions are active — the next
task begins only after some execution returns its worker. -/
theorem c9_admission_control (cap : Nat) (s : PoolState)
    (h : ReachableFrom cap s) :
    s.active + s.avail = cap ∧ s.active ≤ cap ∧
      ∀ t, ExecStep s StepKind.dispatch t → s.active < cap := by
  have hinv := reachable_inv cap s h
  refine ⟨hinv, by omega, ?_⟩
  intro t hstep
  cases hstep with
  | dispatch hav => omega

/-- Witness for C9 at capacity 2, in the initial state. -/
theorem c9_witness :
    (PoolState.mk 2 0).active + (PoolState.mk 2 0).avail = 2 ∧
    (PoolState.mk 2 0).active ≤ 2 ∧
      ∀ t, ExecStep (PoolState.mk 2 0) StepKind.dispatch t →
        (PoolState.mk 2 0).active < 2 :=
  c9_admission_control 2 ⟨2, 0⟩ ReachableFrom.init

/-- C10: `New` with worker count 0 succeeds for every factory: it returns
an executor over an empty pool, a nil error, and makes no factory
invocation at all — in particular `Create` is never invoked. -/
theorem c10_zero_workers {W E : Type} (create : Nat → Except E W) :
    runNew 0 create = ⟨some [], none, []⟩ :=
  rfl

end EzWorker
